import Mathlib

/-!
Verification of the TMDB-Embed-API core against its specification.

The definitions below are a shallow embedding of the JavaScript sources:
  * `src/unnamed/part_000` — the HTTP server: login rate limiting
    (`recordLoginFailure`, `canAttempt`), stream selection
    (`pickBestStream`, `getQualityScore`), aggregation across providers,
    relay-mode header stripping, and the direct-mode responses of the two
    `/api/streams` routes.
  * `src/providers/MP4Hydra.js` — the provider-internal `qualityScore`.

Modelling conventions:
  * JavaScript strings are `String`; a value that may be `null`/`undefined`
    or a non-string is `Option String` (`none` covers both, since both code
    paths guard with `!q` / `typeof q !== 'string'` before any string use).
  * Timestamps (`Date.now()`) are `Int` milliseconds.
  * `Array.prototype.sort` is stable (ES2019); its result for the comparator
    `(a, b) => scoreB - scoreA` is the unique stable sort by descending
    score, embedded here as `List.insertionSort` over `streamLE`, which
    places an element before every later element of equal score — exactly
    the stable order.
  * In-place mutation of the caller's array by `sort` is made explicit:
    `pickBestStreamEff` returns both the selected stream and the final
    state of the array the caller passed in.
-/

namespace TMDBEmbedAPI

/-- `charsStartWith pat l` is true when `pat` is an initial segment of `l`. -/
def charsStartWith : List Char → List Char → Bool
  | [], _ => true
  | _ :: _, [] => false
  | p :: ps, c :: cs => p == c && charsStartWith ps cs

/-- `charsContain hay pat` is true when `pat` occurs contiguously in `hay`. -/
def charsContain (hay pat : List Char) : Bool :=
  match hay with
  | [] => pat.isEmpty
  | _ :: rest => charsStartWith pat hay || charsContain rest pat

/-- JavaScript `s.toUpperCase().includes(pat)` for the ASCII patterns used by
the quality scorers (the pattern literals in the source are already upper
case, so only the subject is upper-cased). -/
def strIncludes (s pat : String) : Bool :=
  charsContain (s.toList.map Char.toUpper) pat.toList

/-- A provider stream object (`src/unnamed/part_000`, built e.g. at
`src/providers/MP4Hydra.js` lines 128-135).  `url` and `quality` are
optional to model absent / empty fields; `headers` is `none` when the
object carries no `headers` key. -/
structure Stream where
  title : String
  url : Option String
  quality : Option String
  provider : String
  headers : Option (List (String × String))
deriving DecidableEq, Repr

/-- `getQualityScore` (`src/unnamed/part_000` lines 135-144).
`!q || typeof q !== 'string'` is `none` (null / non-string) or the empty
string. -/
def getQualityScore (q : Option String) : Nat :=
  match q with
  | none => 0
  | some s =>
    if s = "" then 0
    else if strIncludes s ("4K") || strIncludes s ("2160") then 100
    else if strIncludes s ("1440") || strIncludes s ("2K") then 90
    else if strIncludes s ("1080") then 80
    else if strIncludes s ("720") then 60
    else if strIncludes s ("480") || strIncludes s ("SD") then 40
    else 20

/-- Quality score of a stream, as used by the `pickBestStream` comparator. -/
def scoreOf (s : Stream) : Nat := getQualityScore s.quality

/-- The order imposed by the comparator `(a, b) => scoreB - scoreA`:
`a` sorts no later than `b` iff `a`'s score is at least `b`'s. -/
def streamLE (a b : Stream) : Prop := scoreOf b ≤ scoreOf a

instance : DecidableRel streamLE :=
  fun a b => inferInstanceAs (Decidable (scoreOf b ≤ scoreOf a))

instance : IsTotal Stream streamLE := ⟨fun a b => le_total (scoreOf b) (scoreOf a)⟩

instance : IsTrans Stream streamLE := ⟨fun _ _ _ hab hbc => le_trans hbc hab⟩

/-- The result of `candidates.sort((a, b) => scoreB - scoreA)`: the stable
sort of the list by descending quality score. -/
def sortByScoreDesc (l : List Stream) : List Stream :=
  List.insertionSort streamLE l

/-- `pickBestStream` (`src/unnamed/part_000` lines 113-133), with the
in-place effect of `sort` made explicit: the first component is the return
value, the second is the state of the caller's array after the call
(`sort` mutates `candidates`, which aliases `streams` exactly when no
`preferredProvider` filter was applied). -/
def pickBestStreamEff (streams : List Stream) (preferredProvider : Option String) :
    Option Stream × List Stream :=
  if streams.isEmpty then (none, streams)
  else
    match preferredProvider with
    | some p =>
      let candidates := streams.filter (fun s => s.provider == p)
      if candidates.isEmpty then (none, streams) -- no match → we'll fall back later
      else ((sortByScoreDesc candidates).head?, streams)
    | none => ((sortByScoreDesc streams).head?, sortByScoreDesc streams)

/-- Return value of `pickBestStream`. -/
def pickBestStream (streams : List Stream) (preferredProvider : Option String) :
    Option Stream :=
  (pickBestStreamEff streams preferredProvider).1

/-- `qualityScore` of `src/providers/MP4Hydra.js` lines 33-41 (the
provider-internal 2-10 scale).  `!quality` is `none` or the empty string. -/
def MP4Hydra.qualityScore (quality : Option String) : Nat :=
  match quality with
  | none => 0
  | some s =>
    if s = "" then 0
    else if strIncludes s ("4K") || strIncludes s ("2160") then 10
    else if strIncludes s ("1080") then 8
    else if strIncludes s ("720") then 6
    else if strIncludes s ("480") then 4
    else 2

/-! ### Login attempt governor (`src/unnamed/part_000` lines 23-72) -/

/-- An entry of the `loginAttempts` map (one per client identity). -/
structure LoginEntry where
  count : Nat
  first : Int
  last : Int
  lockedUntil : Int
deriving DecidableEq, Repr

def MAX_ATTEMPTS_WINDOW : Nat := 5

def WINDOW_MS : Int := 10 * 60 * 1000

def BASE_LOCK_MS : Int := 5 * 60 * 1000

/-- `recordLoginFailure` (lines 33-54), as a function of the present map
entry for the ip (or `none`) and of `Date.now()`; returns the entry stored
back into the map. -/
def recordLoginFailure (entry? : Option LoginEntry) (now : Int) : LoginEntry :=
  match entry? with
  | none => ⟨1, now, now, 0⟩
  | some entry =>
    let e1 :=
      if now - entry.first > WINDOW_MS ∧ now > entry.lockedUntil then
        { entry with count := 1, first := now }
      else
        { entry with count := entry.count + 1 }
    let e2 := { e1 with last := now }
    if e2.count > MAX_ATTEMPTS_WINDOW then
      { e2 with
        lockedUntil :=
          now + BASE_LOCK_MS *
            ((min 8 (2 ^ (e2.count - MAX_ATTEMPTS_WINDOW - 1)) : Nat) : Int) }
    else e2

/-- Result object of `canAttempt`. -/
structure AttemptResult where
  allowed : Bool
  retryAfter : Option Int
deriving DecidableEq, Repr

/-- `canAttempt` (lines 56-68): first component is the returned object,
second is the map entry remaining for the ip after the call (the stale
branch deletes it). `Math.ceil((lockedUntil - now)/1000)` on the positive
numerator of the locked branch is `(x + 999) / 1000`. -/
def canAttempt (entry? : Option LoginEntry) (now : Int) :
    AttemptResult × Option LoginEntry :=
  match entry? with
  | none => (⟨true, none⟩, none)
  | some entry =>
    if entry.lockedUntil ≠ 0 ∧ now < entry.lockedUntil then
      (⟨false, some ((entry.lockedUntil - now + 999) / 1000)⟩, some entry)
    else if now - entry.first > WINDOW_MS then (⟨true, none⟩, none)
    else (⟨true, none⟩, some entry)

/-- Five successive `recordLoginFailure` calls starting from no entry. -/
def recordFive (t1 t2 t3 t4 t5 : Int) : LoginEntry :=
  recordLoginFailure
    (some (recordLoginFailure
      (some (recordLoginFailure
        (some (recordLoginFailure
          (some (recordLoginFailure none t1)) t2)) t3)) t4)) t5

/-! ### Aggregation across providers (`src/unnamed/part_000` lines 163-181) -/

/-- One provider as seen by the aggregation loop: its name, `enabled` flag,
the outcome of `prov.fetch(...)` (`Except.error` when the promise rejects),
and the elapsed time the timing probe would record on success. -/
structure ProviderCall where
  name : String
  enabled : Bool
  fetchResult : Except String (List Stream)
  elapsedMs : Int
deriving Repr

/-- Body of the `selectedProviders.map` callback: the streams contributed
and the `providerTimings` entry written (`none` when the provider is
missing/disabled and writes no entry). -/
def runProvider (p : ProviderCall) : List Stream × Option (String × Option Int) :=
  if p.enabled then
    match p.fetchResult with
    | Except.ok r => (r, some (p.name, some p.elapsedMs))
    | Except.error _ => ([], some (p.name, none))
  else ([], none)

/-- `Promise.all` over the provider list followed by `results.flat()`:
the merged stream list (in provider-selection order) and the
`providerTimings` association list. -/
def aggregateProviders (ps : List ProviderCall) :
    List Stream × List (String × Option Int) :=
  ((ps.map fun p => (runProvider p).1).flatten,
   ps.filterMap fun p => (runProvider p).2)

/-! ### Relay-mode header stripping (lines 187-197 and 259-269) -/

/-- `const { headers, ...rest } = s; return rest` — drop the `headers`
key from a stream object. -/
def stripHeaders (s : Stream) : Stream :=
  { s with headers := none }

/-- The `config.enableProxy` block shared by both routes:
`streams = processStreamsForProxy(streams, serverUrl)` followed by the
map that strips `headers` from every (object) element.  The external
`processStreamsForProxy` (in `proxy/proxyServer`, not part of this
repository slice) is an arbitrary rewriter here — the theorem below holds
for every choice of it. -/
def relayPostProcess (rewriter : List Stream → List Stream)
    (streams : List Stream) : List Stream :=
  (rewriter streams).map stripHeaders

/-! ### Direct mode of the two `/api/streams` routes -/

/-- Outcome of a direct-mode request, abstracting the HTTP layer:
404 plain text, 302 redirect, or 200 plain text. -/
inductive DirectResponse where
  | notFound (body : String)
  | redirect (url : String)
  | plainText (body : String)
deriving DecidableEq, Repr

/-- JavaScript `x || dflt` on an optional string (`best.quality || 'unknown'`). -/
def jsOr (q : Option String) (dflt : String) : String :=
  match q with
  | none => dflt
  | some s => if s = "" then dflt else s

/-- Direct mode of `GET /api/streams/:type/:tmdbId`
(`src/unnamed/part_000` lines 201-218). -/
def aggregateDirectResponse (streams : List Stream)
    (preferredProvider : Option String) (redirect : Bool) (tmdbId : String) :
    DirectResponse :=
  match pickBestStream streams preferredProvider with
  | none => DirectResponse.notFound ("No suitable stream found")
  | some best =>
    match best.url with
    | none => DirectResponse.notFound ("No suitable stream found")
    | some u =>
      if u = "" then DirectResponse.notFound ("No suitable stream found")
      else if redirect then DirectResponse.redirect u
      else
        DirectResponse.plainText
          ("# " ++ best.provider ++ " • " ++ jsOr best.quality ("unknown") ++
            " • " ++ tmdbId ++ "\n" ++ u)

/-- Direct mode of `GET /api/streams/:provider/:type/:tmdbId`
(`src/unnamed/part_000` lines 273-289). -/
def providerDirectResponse (streams : List Stream) (provider : String)
    (redirect : Bool) (tmdbId : String) : DirectResponse :=
  match pickBestStream streams (some provider) with
  | none => DirectResponse.notFound ("No stream from " ++ provider)
  | some best =>
    match best.url with
    | none => DirectResponse.notFound ("No stream from " ++ provider)
    | some u =>
      if u = "" then DirectResponse.notFound ("No stream from " ++ provider)
      else if redirect then DirectResponse.redirect u
      else
        DirectResponse.plainText
          ("# " ++ provider ++ " • " ++ jsOr best.quality ("unknown") ++
            " • " ++ tmdbId ++ "\n" ++ u)

/-! ### Spec-side ordered quality table (for claim C2) -/

/-- Walk an ordered table of (patterns, value) rows, returning the value of
the first row one of whose patterns occurs in the label; 20 when no row
matches. -/
def lookupScore (s : String) : List (List String × Nat) → Nat
  | [] => 20
  | (pats, v) :: rest =>
    if pats.any (fun pat => strIncludes s pat) then v else lookupScore s rest

/-- The spec's ordered substring table for the engine-facing scorer. -/
def qualityTable : List (List String × Nat) :=
  [(["4K", "2160"], 100), (["1440", "2K"], 90), (["1080"], 80),
   (["720"], 60), (["480", "SD"], 40)]

/-- The spec's scoring discipline — case-insensitive substring match against
the ordered table — with the amended default tier: non-matching non-empty
strings score 20, while `null`/non-string and the empty string score 0. -/
def tableScore (q : Option String) : Nat :=
  match q with
  | none => 0
  | some s => if s = "" then 0 else lookupScore s qualityTable

/-! ## Theorems -/

/-- C1 counterexample: `pickBestStream` applied to a list with no stream of
the preferred provider returns `none` — exactly the value of the
empty-input call — so the caller can NOT distinguish the NO_MATCH case from
"no streams at all". -/
theorem pickBestStream_no_match_cx :
    (⟨"t", some ("u"), some ("720p"), "a", none⟩ : Stream).provider ≠ "x" ∧
    pickBestStream [⟨"t", some ("u"), some ("720p"), "a", none⟩] (some ("x")) = none ∧
    pickBestStream ([] : List Stream) none = none := by decide

/-- C1 (amended): when `preferredProvider` is set and no stream carries that
provider, `pickBestStream` returns `none`, the same value the empty input
yields; no distinguishable NO_MATCH signal exists. -/
theorem pickBestStream_no_match (l : List Stream) (p : String)
    (h : ∀ s ∈ l, s.provider ≠ p) :
    pickBestStream l (some p) = none ∧ pickBestStream ([] : List Stream) none = none := by
  refine ⟨?_, rfl⟩
  have hf : l.filter (fun s => s.provider == p) = [] := by
    refine List.filter_eq_nil_iff.mpr ?_
    intro s hs
    simpa using h s hs
  by_cases hl : l.isEmpty <;>
    simp [pickBestStream, pickBestStreamEff, hl, hf]

/-- C1 witness: a one-element list of provider "a" with preferred provider
"x". -/
theorem pickBestStream_no_match_witness :
    pickBestStream [⟨"t2", some ("u2"), some ("1080p"), "a", none⟩] (some ("x")) = none ∧
    pickBestStream ([] : List Stream) none = none :=
  pickBestStream_no_match [⟨"t2", some ("u2"), some ("1080p"), "a", none⟩] "x" (by decide)

/-- C2 counterexample: the claim says the empty string and non-string values
score 20; in the code both fall into the `!q || typeof q !== 'string'`
guard and score 0. -/
theorem getQualityScore_default_cx :
    getQualityScore (some ("")) ≠ 20 ∧
    getQualityScore (some ("")) = 0 ∧ getQualityScore none = 0 := by decide

/-- C2 (amended): the engine scorer equals the ordered substring table with
the default tier corrected — non-matching non-empty labels score 20, the
empty string and non-string inputs score 0 — and the ordering chain
`score 4K > score 1080p > score 720p > score 480p > score null = score ""`
holds, the last two both being 0. -/
theorem getQualityScore_spec (q : Option String) :
    getQualityScore q = tableScore q ∧
    getQualityScore (some ("4K")) > getQualityScore (some ("1080p")) ∧
    getQualityScore (some ("1080p")) > getQualityScore (some ("720p")) ∧
    getQualityScore (some ("720p")) > getQualityScore (some ("480p")) ∧
    getQualityScore (some ("480p")) > getQualityScore none ∧
    getQualityScore none = getQualityScore (some ("")) ∧
    getQualityScore none = 0 := by
  refine ⟨?_, by decide, by decide, by decide, by decide, by decide, by decide⟩
  cases q with
  | none => rfl
  | some s =>
    by_cases h0 : s = "" <;>
      simp [getQualityScore, tableScore, qualityTable, lookupScore, h0]

/-- C4: a provider whose fetch rejects contributes an empty stream list and
a `null` timing entry, and the batch still carries every other provider's
streams and timings unchanged. -/
theorem aggregate_isolates_failure (ps₁ ps₂ : List ProviderCall) (p : ProviderCall)
    (msg : String) (hen : p.enabled = true) (herr : p.fetchResult = Except.error msg) :
    (aggregateProviders (ps₁ ++ p :: ps₂)).1
        = (aggregateProviders ps₁).1 ++ (aggregateProviders ps₂).1 ∧
    (aggregateProviders (ps₁ ++ p :: ps₂)).2
        = (aggregateProviders ps₁).2 ++ ((p.name, none) :: (aggregateProviders ps₂).2) := by
  have hp : runProvider p = ([], some (p.name, none)) := by
    simp [runProvider, hen, herr]
  constructor <;> simp [aggregateProviders, hp]

/-- C4 witness: provider "b" rejects between succeeding providers "a" and
"c"; the aggregate keeps a's and c's streams and records `(b, none)`. -/
theorem aggregate_isolates_failure_witness :
    (aggregateProviders
        [⟨"a", true, Except.ok [⟨"ta", some ("ua"), some ("720p"), "a", none⟩], 5⟩,
         ⟨"b", true, Except.error "network down", 0⟩,
         ⟨"c", true, Except.ok [⟨"tc", some ("uc"), some ("1080p"), "c", none⟩], 7⟩]).1
      = (aggregateProviders
          [⟨"a", true, Except.ok [⟨"ta", some ("ua"), some ("720p"), "a", none⟩], 5⟩]).1 ++
        (aggregateProviders
          [⟨"c", true, Except.ok [⟨"tc", some ("uc"), some ("1080p"), "c", none⟩], 7⟩]).1 ∧
    (aggregateProviders
        [⟨"a", true, Except.ok [⟨"ta", some ("ua"), some ("720p"), "a", none⟩], 5⟩,
         ⟨"b", true, Except.error "network down", 0⟩,
         ⟨"c", true, Except.ok [⟨"tc", some ("uc"), some ("1080p"), "c", none⟩], 7⟩]).2
      = (aggregateProviders
          [⟨"a", true, Except.ok [⟨"ta", some ("ua"), some ("720p"), "a", none⟩], 5⟩]).2 ++
        (("b", none) :: (aggregateProviders
          [⟨"c", true, Except.ok [⟨"tc", some ("uc"), some ("1080p"), "c", none⟩], 7⟩]).2) :=
  aggregate_isolates_failure
    [⟨"a", true, Except.ok [⟨"ta", some ("ua"), some ("720p"), "a", none⟩], 5⟩]
    [⟨"c", true, Except.ok [⟨"tc", some ("uc"), some ("1080p"), "c", none⟩], 7⟩]
    ⟨"b", true, Except.error "network down", 0⟩ "network down" rfl rfl

/-- C7: with relay mode active, every stream coming out of the shared
post-processing block of both `/api/streams` routes has no `headers` field,
whatever the external rewriter `processStreamsForProxy` returned. -/
theorem relay_strips_headers (rewriter : List Stream → List Stream)
    (streams : List Stream) (s : Stream)
    (hs : s ∈ relayPostProcess rewriter streams) : s.headers = none := by
  rcases List.mem_map.mp hs with ⟨t, -, rfl⟩
  rfl

/-- C7 witness: a stream that did carry headers loses them. -/
theorem relay_strips_headers_witness :
    (stripHeaders ⟨"t", some ("u"), some ("720p"), "mp4hydra",
        some [("Referer", "mp4hydra.org")]⟩).headers = none :=
  relay_strips_headers id
    [⟨"t", some ("u"), some ("720p"), "mp4hydra", some [("Referer", "mp4hydra.org")]⟩]
    (stripHeaders ⟨"t", some ("u"), some ("720p"), "mp4hydra",
        some [("Referer", "mp4hydra.org")]⟩)
    (by simp [relayPostProcess])

/-- C10: in direct mode both routes answer 404 whenever the selected best
stream has a missing or empty `url`, and any redirect they do emit carries
the non-empty `url` of the selected stream — a stream without a non-empty
url is never returned or redirected to. -/
theorem directMode_requires_url (streams : List Stream) (p : Option String)
    (prov tmdbId : String) (red : Bool) (b : Stream) :
    (pickBestStream streams p = some b → b.url = none ∨ b.url = some "" →
      aggregateDirectResponse streams p red tmdbId
        = DirectResponse.notFound ("No suitable stream found")) ∧
    (pickBestStream streams (some prov) = some b → b.url = none ∨ b.url = some "" →
      providerDirectResponse streams prov red tmdbId
        = DirectResponse.notFound ("No stream from " ++ prov)) ∧
    (∀ u, aggregateDirectResponse streams p red tmdbId = DirectResponse.redirect u →
      ∃ c, pickBestStream streams p = some c ∧ c.url = some u ∧ u ≠ "") ∧
    (∀ u, providerDirectResponse streams prov red tmdbId = DirectResponse.redirect u →
      ∃ c, pickBestStream streams (some prov) = some c ∧ c.url = some u ∧ u ≠ "") := by
  refine ⟨?_, ?_, ?_, ?_⟩
  · intro hb hu
    rcases hu with hu | hu <;> simp [aggregateDirectResponse, hb, hu]
  · intro hb hu
    rcases hu with hu | hu <;> simp [providerDirectResponse, hb, hu]
  · intro u hres
    rcases hbest : pickBestStream streams p with - | c
    · simp [aggregateDirectResponse, hbest] at hres
    · simp only [aggregateDirectResponse, hbest] at hres
      rcases hurl : c.url with - | v
      · simp only [hurl] at hres
        exact absurd hres (by simp)
      · simp only [hurl] at hres
        by_cases hv : v = ""
        · simp [hv] at hres
        · rw [if_neg hv] at hres
          rcases hr : red <;> rw [hr] at hres <;> simp at hres
          exact ⟨c, rfl, by rw [hurl, hres], by rw [← hres]; exact hv⟩
  · intro u hres
    rcases hbest : pickBestStream streams (some prov) with - | c
    · simp [providerDirectResponse, hbest] at hres
    · simp only [providerDirectResponse, hbest] at hres
      rcases hurl : c.url with - | v
      · simp only [hurl] at hres
        exact absurd hres (by simp)
      · simp only [hurl] at hres
        by_cases hv : v = ""
        · simp [hv] at hres
        · rw [if_neg hv] at hres
          rcases hr : red <;> rw [hr] at hres <;> simp at hres
          exact ⟨c, rfl, by rw [hurl, hres], by rw [← hres]; exact hv⟩

/-- C10 witness: a single best-quality stream whose `url` is absent makes
the aggregate route's direct mode answer 404. -/
theorem directMode_requires_url_witness :
    aggregateDirectResponse [⟨"t", none, some ("1080p"), "prov", none⟩] none false "603"
      = DirectResponse.notFound ("No suitable stream found") :=
  (directMode_requires_url [⟨"t", none, some ("1080p"), "prov", none⟩] none "prov" "603"
      false ⟨"t", none, some ("1080p"), "prov", none⟩).1 (by decide) (Or.inl rfl)

/-- Head of the stable descending sort: the first element of the input that
attains the maximal quality score (everything before it in the input scores
strictly lower, everything in the input scores no higher). -/
theorem sortByScoreDesc_head (l : List Stream) (h : l ≠ []) :
    ∃ s l₁ l₂, (sortByScoreDesc l).head? = some s ∧ l = l₁ ++ s :: l₂ ∧
      (∀ t ∈ l₁, scoreOf t < scoreOf s) ∧ ∀ t ∈ l, scoreOf t ≤ scoreOf s := by
  induction l with
  | nil => exact absurd rfl h
  | cons x xs ih =>
    cases xs with
    | nil => exact ⟨x, [], [], rfl, rfl, by simp, by simp⟩
    | cons y ys =>
      obtain ⟨s, l₁, l₂, hh, he, hlt, hle⟩ := ih (by simp)
      obtain ⟨rest, hrest⟩ : ∃ rest, sortByScoreDesc (y :: ys) = s :: rest := by
        rcases hsort : sortByScoreDesc (y :: ys) with - | ⟨a, r⟩
        · rw [hsort] at hh
          exact absurd hh (by simp)
        · rw [hsort] at hh
          simp only [List.head?, Option.some.injEq] at hh
          exact ⟨r, by rw [hh]⟩
      have hstep : sortByScoreDesc (x :: y :: ys)
          = List.orderedInsert streamLE x (s :: rest) := by
        rw [← hrest]
        rfl
      by_cases hxs : streamLE x s
      · refine ⟨x, [], y :: ys, ?_, rfl, by simp, ?_⟩
        · rw [hstep]
          simp only [List.orderedInsert, if_pos hxs, List.head?]
        · intro t ht
          rcases List.mem_cons.mp ht with rfl | ht'
          · exact le_refl _
          · exact le_trans (hle t ht') hxs
      · refine ⟨s, x :: l₁, l₂, ?_, congrArg (List.cons x) he, ?_, ?_⟩
        · rw [hstep]
          simp only [List.orderedInsert, if_neg hxs, List.head?]
        · intro t ht
          rcases List.mem_cons.mp ht with rfl | ht'
          · exact lt_of_not_le hxs
          · exact hlt t ht'
        · intro t ht
          rcases List.mem_cons.mp ht with rfl | ht'
          · exact le_of_lt (lt_of_not_le hxs)
          · exact hle t ht'

/-- C5: on a non-empty list `pickBestStream` (a pure function, hence
deterministic across invocations) returns the stream appearing first in the
original order among those of maximal quality score: everything strictly
earlier in the input scores strictly lower, so score ties are broken by
original position and no secondary key intervenes. -/
theorem pickBestStream_tiebreak (l : List Stream) (h : l ≠ []) :
    ∃ s l₁ l₂, pickBestStream l none = some s ∧ l = l₁ ++ s :: l₂ ∧
      (∀ t ∈ l₁, scoreOf t < scoreOf s) ∧ ∀ t ∈ l, scoreOf t ≤ scoreOf s := by
  have hne : l.isEmpty = false := by
    rcases l with - | ⟨a, r⟩
    · exact absurd rfl h
    · rfl
  have hpick : pickBestStream l none = (sortByScoreDesc l).head? := by
    simp [pickBestStream, pickBestStreamEff, hne]
  rw [hpick]
  exact sortByScoreDesc_head l h

/-- C5 witness: two streams tied at score 60 in provider order a, b; the
first is selected. -/
theorem pickBestStream_tiebreak_witness :
    pickBestStream
      [⟨"tA", some ("uA"), some ("720p"), "a", none⟩,
       ⟨"tB", some ("uB"), some ("720p"), "b", none⟩] none
      = some ⟨"tA", some ("uA"), some ("720p"), "a", none⟩ := by
  obtain ⟨s, l₁, l₂, h1, h2, h3, -⟩ :=
    pickBestStream_tiebreak
      [⟨"tA", some ("uA"), some ("720p"), "a", none⟩,
       ⟨"tB", some ("uB"), some ("720p"), "b", none⟩] (by decide)
  rcases l₁ with - | ⟨a, l₁'⟩
  · simp only [List.nil_append, List.cons.injEq] at h2
    rw [h1, h2.1]
  · rcases l₁' with - | ⟨b, l₁''⟩
    · simp only [List.cons_append, List.nil_append, List.cons.injEq] at h2
      obtain ⟨ha, hs, -⟩ := h2
      have h60 := h3 a (by simp)
      rw [← ha, ← hs] at h60
      exact absurd h60 (by decide)
    · have hlen := congrArg List.length h2
      simp [List.length_append] at hlen

/-- C9: without a `preferredProvider`, `pickBestStream` sorts the caller's
array in place — afterwards it is the stable permutation of the input in
descending quality-score order; with a `preferredProvider` only the
filtered copy is sorted and the caller's array is untouched. -/
theorem pickBestStream_frame (l : List Stream) (p : String) (h : l ≠ []) :
    (pickBestStreamEff l none).2 = sortByScoreDesc l ∧
    List.Perm (sortByScoreDesc l) l ∧
    List.Sorted streamLE (sortByScoreDesc l) ∧
    (pickBestStreamEff l (some p)).2 = l := by
  have hne : l.isEmpty = false := by
    rcases l with - | ⟨a, r⟩
    · exact absurd rfl h
    · rfl
  refine ⟨by simp [pickBestStreamEff, hne], ?_, ?_, ?_⟩
  · simpa [sortByScoreDesc] using List.perm_insertionSort streamLE l
  · simpa [sortByScoreDesc] using List.sorted_insertionSort streamLE l
  · by_cases hc : (l.filter (fun s => s.provider == p)).isEmpty <;>
      simp [pickBestStreamEff, hne, hc]

/-- C9 witness: a two-element list out of score order is sorted in place by
the bare call and untouched by the provider-filtered call. -/
theorem pickBestStream_frame_witness :
    (pickBestStreamEff
        [⟨"tA", some ("uA"), some ("480p"), "a", none⟩,
         ⟨"tB", some ("uB"), some ("1080p"), "b", none⟩] none).2
      = sortByScoreDesc
          [⟨"tA", some ("uA"), some ("480p"), "a", none⟩,
           ⟨"tB", some ("uB"), some ("1080p"), "b", none⟩] ∧
    List.Perm
      (sortByScoreDesc
        [⟨"tA", some ("uA"), some ("480p"), "a", none⟩,
         ⟨"tB", some ("uB"), some ("1080p"), "b", none⟩])
      [⟨"tA", some ("uA"), some ("480p"), "a", none⟩,
       ⟨"tB", some ("uB"), some ("1080p"), "b", none⟩] ∧
    List.Sorted streamLE
      (sortByScoreDesc
        [⟨"tA", some ("uA"), some ("480p"), "a", none⟩,
         ⟨"tB", some ("uB"), some ("1080p"), "b", none⟩]) ∧
    (pickBestStreamEff
        [⟨"tA", some ("uA"), some ("480p"), "a", none⟩,
         ⟨"tB", some ("uB"), some ("1080p"), "b", none⟩] (some ("a"))).2
      = [⟨"tA", some ("uA"), some ("480p"), "a", none⟩,
         ⟨"tB", some ("uB"), some ("1080p"), "b", none⟩] :=
  pickBestStream_frame
    [⟨"tA", some ("uA"), some ("480p"), "a", none⟩,
     ⟨"tB", some ("uB"), some ("1080p"), "b", none⟩] "a" (by decide)

/-- A failure inside the current window that keeps the count at or below
the threshold: pure increment, no lock. -/
theorem recordLoginFailure_within (e : LoginEntry) (now : Int)
    (hW : now - e.first ≤ WINDOW_MS) (hc : e.count + 1 ≤ MAX_ATTEMPTS_WINDOW) :
    recordLoginFailure (some e) now = ⟨e.count + 1, e.first, now, e.lockedUntil⟩ := by
  have h1 : ¬(now - e.first > WINDOW_MS ∧ now > e.lockedUntil) := by
    intro hh
    exact absurd hh.1 (not_lt.mpr hW)
  have h2 : ¬(e.count + 1 > MAX_ATTEMPTS_WINDOW) := not_lt.mpr hc
  simp [recordLoginFailure, h1, h2]

/-- A failure that neither resets the window (the window is still open, or
the lock has not strictly expired) and takes the count over the threshold:
increment plus capped exponential lock. -/
theorem recordLoginFailure_lock (e : LoginEntry) (now : Int)
    (hstay : now - e.first ≤ WINDOW_MS ∨ now ≤ e.lockedUntil)
    (hc : MAX_ATTEMPTS_WINDOW < e.count + 1) :
    recordLoginFailure (some e) now =
      ⟨e.count + 1, e.first, now,
        now + BASE_LOCK_MS *
          ((min 8 (2 ^ (e.count + 1 - MAX_ATTEMPTS_WINDOW - 1)) : Nat) : Int)⟩ := by
  have h1 : ¬(now - e.first > WINDOW_MS ∧ now > e.lockedUntil) := by
    rcases hstay with hs | hs
    · intro hh
      exact absurd hh.1 (not_lt.mpr hs)
    · intro hh
      exact absurd hh.2 (not_lt.mpr hs)
  simp [recordLoginFailure, h1, hc]

/-- `canAttempt` always allows when no lock has ever been set for the entry. -/
theorem canAttempt_unlocked (e : LoginEntry) (h : e.lockedUntil = 0) (t : Int) :
    ((canAttempt (some e) t).1).allowed = true := by
  simp only [canAttempt, h, ne_eq, not_true_eq_false, false_and, if_false]
  split <;> rfl

/-- C3: five failures inside one window leave the entry unlocked (count 5,
`lockedUntil` 0, every `canAttempt` allowed); the sixth failure locks for
exactly `BASE_LOCK_MS`; and in general a failure that keeps the window and
takes the count to `count+1 > MAX_ATTEMPTS_WINDOW` sets
`lockedUntil = now + BASE_LOCK_MS * min 8 (2 ^ (over - 1))` with
`over = count + 1 - MAX_ATTEMPTS_WINDOW`, so the lock never exceeds eight
times the base duration. -/
theorem login_lockout_escalation (t1 t2 t3 t4 t5 t6 : Int) (e : LoginEntry) (now : Int)
    (h12 : t1 ≤ t2) (h23 : t2 ≤ t3) (h34 : t3 ≤ t4) (h45 : t4 ≤ t5) (h56 : t5 ≤ t6)
    (hwin : t6 - t1 ≤ WINDOW_MS)
    (hstay : now - e.first ≤ WINDOW_MS ∨ now ≤ e.lockedUntil)
    (hover : MAX_ATTEMPTS_WINDOW < e.count + 1) :
    (recordFive t1 t2 t3 t4 t5).count = 5 ∧
    (recordFive t1 t2 t3 t4 t5).lockedUntil = 0 ∧
    (∀ t, ((canAttempt (some (recordFive t1 t2 t3 t4 t5)) t).1).allowed = true) ∧
    (recordLoginFailure (some (recordFive t1 t2 t3 t4 t5)) t6).lockedUntil
        = t6 + BASE_LOCK_MS ∧
    (recordLoginFailure (some e) now).lockedUntil
        = now + BASE_LOCK_MS *
            ((min 8 (2 ^ (e.count + 1 - MAX_ATTEMPTS_WINDOW - 1)) : Nat) : Int) ∧
    (recordLoginFailure (some e) now).lockedUntil ≤ now + 8 * BASE_LOCK_MS := by
  have s1 : recordLoginFailure none t1 = ⟨1, t1, t1, 0⟩ := rfl
  have s2 : recordLoginFailure (some ⟨1, t1, t1, 0⟩) t2 = ⟨2, t1, t2, 0⟩ := by
    have := recordLoginFailure_within ⟨1, t1, t1, 0⟩ t2
      (show t2 - t1 ≤ WINDOW_MS by omega)
      (show (1 : Nat) + 1 ≤ MAX_ATTEMPTS_WINDOW by decide)
    simpa using this
  have s3 : recordLoginFailure (some ⟨2, t1, t2, 0⟩) t3 = ⟨3, t1, t3, 0⟩ := by
    have := recordLoginFailure_within ⟨2, t1, t2, 0⟩ t3
      (show t3 - t1 ≤ WINDOW_MS by omega)
      (show (2 : Nat) + 1 ≤ MAX_ATTEMPTS_WINDOW by decide)
    simpa using this
  have s4 : recordLoginFailure (some ⟨3, t1, t3, 0⟩) t4 = ⟨4, t1, t4, 0⟩ := by
    have := recordLoginFailure_within ⟨3, t1, t3, 0⟩ t4
      (show t4 - t1 ≤ WINDOW_MS by omega)
      (show (3 : Nat) + 1 ≤ MAX_ATTEMPTS_WINDOW by decide)
    simpa using this
  have s5 : recordLoginFailure (some ⟨4, t1, t4, 0⟩) t5 = ⟨5, t1, t5, 0⟩ := by
    have := recordLoginFailure_within ⟨4, t1, t4, 0⟩ t5
      (show t5 - t1 ≤ WINDOW_MS by omega)
      (show (4 : Nat) + 1 ≤ MAX_ATTEMPTS_WINDOW by decide)
    simpa using this
  have hfive : recordFive t1 t2 t3 t4 t5 = ⟨5, t1, t5, 0⟩ := by
    rw [recordFive, s1, s2, s3, s4, s5]
  have hsix : recordLoginFailure (some (⟨5, t1, t5, 0⟩ : LoginEntry)) t6
      = ⟨6, t1, t6, t6 + BASE_LOCK_MS⟩ := by
    have := recordLoginFailure_lock ⟨5, t1, t5, 0⟩ t6
      (Or.inl (show t6 - t1 ≤ WINDOW_MS by omega))
      (show MAX_ATTEMPTS_WINDOW < (5 : Nat) + 1 by decide)
    have hmul : ((min 8 (2 ^ (5 + 1 - MAX_ATTEMPTS_WINDOW - 1)) : Nat) : Int) = 1 := by
      decide
    rw [this]
    simp [hmul]
  have hgen := recordLoginFailure_lock e now hstay hover
  refine ⟨by rw [hfive], by rw [hfive], ?_, by rw [hfive, hsix], by rw [hgen], ?_⟩
  · intro t
    rw [hfive]
    exact canAttempt_unlocked ⟨5, t1, t5, 0⟩ rfl t
  · rw [hgen]
    have hcap : (min 8 (2 ^ (e.count + 1 - MAX_ATTEMPTS_WINDOW - 1)) : Nat) ≤ 8 :=
      min_le_left 8 _
    simp only [BASE_LOCK_MS]
    omega

/-- C3 witness: failures at times 0..4 then 5, and the general escalation
at count 9 → 10 (over = 5, multiplier capped at 8). -/
theorem login_lockout_escalation_witness :
    (recordFive 0 1 2 3 4).count = 5 ∧
    (recordFive 0 1 2 3 4).lockedUntil = 0 ∧
    (∀ t, ((canAttempt (some (recordFive 0 1 2 3 4)) t).1).allowed = true) ∧
    (recordLoginFailure (some (recordFive 0 1 2 3 4)) 5).lockedUntil
        = 5 + BASE_LOCK_MS ∧
    (recordLoginFailure (some ⟨9, 0, 4, 0⟩) 10).lockedUntil
        = 10 + BASE_LOCK_MS *
            ((min 8 (2 ^ (9 + 1 - MAX_ATTEMPTS_WINDOW - 1)) : Nat) : Int) ∧
    (recordLoginFailure (some ⟨9, 0, 4, 0⟩) 10).lockedUntil ≤ 10 + 8 * BASE_LOCK_MS :=
  login_lockout_escalation 0 1 2 3 4 5 ⟨9, 0, 4, 0⟩ 10
    (by decide) (by decide) (by decide) (by decide) (by decide) (by decide)
    (Or.inl (by decide)) (by decide)

/-- C6 counterexample: at `now` exactly equal to a positive `lockedUntil`
the lock is no longer active (`canAttempt` allows), the window has expired,
yet `recordLoginFailure` increments the count to 7 and keeps `first`
instead of resetting to a fresh window — the reset requires `now` STRICTLY
past `lockedUntil`. -/
theorem recordLoginFailure_reset_cx :
    ((canAttempt (some ⟨6, 0, 330000, 630000⟩) 630000).1).allowed = true ∧
    630000 - (⟨6, 0, 330000, 630000⟩ : LoginEntry).first > WINDOW_MS ∧
    (recordLoginFailure (some ⟨6, 0, 330000, 630000⟩) 630000).count = 7 ∧
    (recordLoginFailure (some ⟨6, 0, 330000, 630000⟩) 630000).first = 0 := by
  decide

/-- C6 (amended): with an existing entry, a failure at `now` with
`now - first > WINDOW_MS` resets the window (count 1, first = now) exactly
when `now` is STRICTLY greater than `lockedUntil`; in every other case —
window still open, lock in the future, or `now` equal to `lockedUntil` —
the count is incremented and `first` is kept. -/
theorem recordLoginFailure_window_reset (e : LoginEntry) (now : Int) :
    (now - e.first > WINDOW_MS → now > e.lockedUntil →
      (recordLoginFailure (some e) now).count = 1 ∧
      (recordLoginFailure (some e) now).first = now) ∧
    (¬(now - e.first > WINDOW_MS ∧ now > e.lockedUntil) →
      (recordLoginFailure (some e) now).count = e.count + 1 ∧
      (recordLoginFailure (some e) now).first = e.first) := by
  constructor
  · intro hW hL
    have h1 : now - e.first > WINDOW_MS ∧ now > e.lockedUntil := ⟨hW, hL⟩
    have h2 : ¬((1 : Nat) > MAX_ATTEMPTS_WINDOW) := by decide
    simp [recordLoginFailure, h1, h2]
  · intro h1
    by_cases h2 : e.count + 1 > MAX_ATTEMPTS_WINDOW <;>
      simp [recordLoginFailure, h1, h2]

/-- C6 witness: a stale unlocked entry is reset to count 1 at the new time. -/
theorem recordLoginFailure_window_reset_witness :
    (recordLoginFailure (some ⟨3, 0, 120000, 0⟩) 700000).count = 1 ∧
    (recordLoginFailure (some ⟨3, 0, 120000, 0⟩) 700000).first = 700000 :=
  (recordLoginFailure_window_reset ⟨3, 0, 120000, 0⟩ 700000).1 (by decide) (by decide)

/-- Labels falling in a tier that only the engine-facing scorer
distinguishes: `1440`/`2K` (its 90-tier) or `SD` (part of its 40-tier).
The MP4Hydra scorer has no corresponding tier for these. -/
def engineOnlyTier (q : Option String) : Bool :=
  match q with
  | none => false
  | some s => strIncludes s ("1440") || strIncludes s ("2K") || strIncludes s ("SD")

/-- On labels outside the engine-only tiers, the two scorers assign paired
tier values: (0,0), (20,2), (40,4), (60,6), (80,8) or (100,10). -/
theorem scorer_tier_pair (q : Option String) (h : engineOnlyTier q = false) :
    (getQualityScore q = 0 ∧ MP4Hydra.qualityScore q = 0) ∨
    (getQualityScore q = 20 ∧ MP4Hydra.qualityScore q = 2) ∨
    (getQualityScore q = 40 ∧ MP4Hydra.qualityScore q = 4) ∨
    (getQualityScore q = 60 ∧ MP4Hydra.qualityScore q = 6) ∨
    (getQualityScore q = 80 ∧ MP4Hydra.qualityScore q = 8) ∨
    (getQualityScore q = 100 ∧ MP4Hydra.qualityScore q = 10) := by
  cases q with
  | none => exact Or.inl ⟨rfl, rfl⟩
  | some s =>
    simp only [engineOnlyTier, Bool.or_eq_false_iff] at h
    obtain ⟨⟨h14, h2k⟩, hsd⟩ := h
    by_cases h0 : s = ""
    · exact Or.inl ⟨by simp [getQualityScore, h0], by simp [MP4Hydra.qualityScore, h0]⟩
    · by_cases c1 : strIncludes s ("4K") = true
      · refine Or.inr (Or.inr (Or.inr (Or.inr (Or.inr ⟨?_, ?_⟩))))
        · simp [getQualityScore, h0, c1]
        · simp [MP4Hydra.qualityScore, h0, c1]
      · by_cases c2 : strIncludes s ("2160") = true
        · refine Or.inr (Or.inr (Or.inr (Or.inr (Or.inr ⟨?_, ?_⟩))))
          · simp [getQualityScore, h0, c1, c2]
          · simp [MP4Hydra.qualityScore, h0, c1, c2]
        · by_cases c3 : strIncludes s ("1080") = true
          · refine Or.inr (Or.inr (Or.inr (Or.inr (Or.inl ⟨?_, ?_⟩))))
            · simp [getQualityScore, h0, c1, c2, h14, h2k, c3]
            · simp [MP4Hydra.qualityScore, h0, c1, c2, c3]
          · by_cases c4 : strIncludes s ("720") = true
            · refine Or.inr (Or.inr (Or.inr (Or.inl ⟨?_, ?_⟩)))
              · simp [getQualityScore, h0, c1, c2, h14, h2k, c3, c4]
              · simp [MP4Hydra.qualityScore, h0, c1, c2, c3, c4]
            · by_cases c5 : strIncludes s ("480") = true
              · refine Or.inr (Or.inr (Or.inl ⟨?_, ?_⟩))
                · simp [getQualityScore, h0, c1, c2, h14, h2k, c3, c4, c5]
                · simp [MP4Hydra.qualityScore, h0, c1, c2, c3, c4, c5]
              · refine Or.inr (Or.inl ⟨?_, ?_⟩)
                · simp [getQualityScore, h0, c1, c2, h14, h2k, c3, c4, c5, hsd]
                · simp [MP4Hydra.qualityScore, h0, c1, c2, c3, c4, c5]

/-- C8 counterexample: on the pair ("1440p", "1080p") the engine scorer
orders 1440p strictly above 1080p (90 > 80) while the MP4Hydra scorer
orders it strictly below (2 < 8) — the two scorers do not induce the same
strict ordering on every pair of labels. -/
theorem scorer_equivalence_cx :
    getQualityScore (some ("1080p")) < getQualityScore (some ("1440p")) ∧
    MP4Hydra.qualityScore (some ("1440p")) < MP4Hydra.qualityScore (some ("1080p")) := by
  decide

/-- C8 (amended): the two scorers are monotonically equivalent on every
pair of labels outside the tiers only the engine scorer distinguishes
(uppercase containing `1440`, `2K` or `SD`): there they induce the same
strict ordering; on the engine-only tiers the equivalence fails. -/
theorem scorer_equivalence_shared (a b : Option String)
    (ha : engineOnlyTier a = false) (hb : engineOnlyTier b = false) :
    MP4Hydra.qualityScore a < MP4Hydra.qualityScore b ↔
      getQualityScore a < getQualityScore b := by
  rcases scorer_tier_pair a ha with ⟨h1, h2⟩|⟨h1, h2⟩|⟨h1, h2⟩|⟨h1, h2⟩|⟨h1, h2⟩|⟨h1, h2⟩ <;>
    rcases scorer_tier_pair b hb with ⟨g1, g2⟩|⟨g1, g2⟩|⟨g1, g2⟩|⟨g1, g2⟩|⟨g1, g2⟩|⟨g1, g2⟩ <;>
      rw [h1, h2, g1, g2] <;> omega

/-- C8 witness: on ("1080p", "4K") the two scorers agree on the strict
order. -/
theorem scorer_equivalence_shared_witness :
    MP4Hydra.qualityScore (some ("1080p")) < MP4Hydra.qualityScore (some ("4K")) ↔
      getQualityScore (some ("1080p")) < getQualityScore (some ("4K")) :=
  scorer_equivalence_shared (some ("1080p")) (some ("4K")) (by decide) (by decide)

end TMDBEmbedAPI
